import Mathlib

/-!
Verification of the container-collision simulation
(`runCollisionSimulation` in `kollision.cpp`).

The simulation state is embedded over exact rationals.  The C++ code
computes Euclidean lengths with `std::hypot`; since an exact square root
is not computable on the rationals, every operation that needs a length
takes the square-root map `f : Q -> Q` as an explicit parameter and
applies it to the squared length, and theorems that depend on the metric
meaning of the length carry the hypothesis that `f` is exact at the
squared lengths actually used.
-/

/-- A 2D vector with rational components, standing for `sf::Vector2f`. -/
structure Vec2 where
  x : ℚ
  y : ℚ
deriving DecidableEq

instance : Add Vec2 := ⟨fun a b => ⟨a.x + b.x, a.y + b.y⟩⟩
instance : Sub Vec2 := ⟨fun a b => ⟨a.x - b.x, a.y - b.y⟩⟩
instance : Neg Vec2 := ⟨fun a => ⟨-a.x, -a.y⟩⟩
instance : SMul ℚ Vec2 := ⟨fun c a => ⟨c * a.x, c * a.y⟩⟩

theorem Vec2.add_def (a b : Vec2) : a + b = ⟨a.x + b.x, a.y + b.y⟩ := rfl

theorem Vec2.sub_def (a b : Vec2) : a - b = ⟨a.x - b.x, a.y - b.y⟩ := rfl

theorem Vec2.smul_def (c : ℚ) (a : Vec2) : c • a = ⟨c * a.x, c * a.y⟩ := rfl

/-- A movable disc: the `Ball` struct (its `shape` holds the position). -/
structure Ball where
  position : Vec2
  velocity : Vec2
  radius : ℚ
deriving DecidableEq

/-- The axis-aligned container rectangle (`sf::FloatRect bounds`). -/
structure Rect where
  left : ℚ
  top : ℚ
  width : ℚ
  height : ℚ
deriving DecidableEq

/-- The restitution constant of the simulation (`const float restitution = 0.8f`). -/
def restitution : ℚ := 4/5

/-- The throw-velocity scale used on mouse release (`(m - dragStart) * 5.f`). -/
def throwScale : ℚ := 5

/-- The container used by the simulation: `FloatRect(50, 50, 800-100, 600-100)`. -/
def simBounds : Rect := ⟨50, 50, 700, 500⟩

/-- Squared center distance of two balls; `std::hypot` applied to the
center difference is the square-root parameter applied to this value. -/
def sqDist (A B : Ball) : ℚ :=
  let d := B.position - A.position
  d.x ^ 2 + d.y ^ 2

/-- One Euler integration step: `b.shape.move(b.velocity * dt)`. -/
def integrate (dt : ℚ) (b : Ball) : Ball :=
  { b with position := b.position + dt • b.velocity }

/-- The per-ball wall-collision block of the tick loop, translated
statement by statement: the position `p` is read once before the four
checks, each check tests `p`, and each clamp rebuilds the position from
components of the stale `p`. -/
def wallCollide (e : ℚ) (bounds : Rect) (b : Ball) : Ball :=
  let p := b.position
  let b1 := if p.x - b.radius < bounds.left then
      { b with position := ⟨bounds.left + b.radius, p.y⟩,
               velocity := ⟨-e * b.velocity.x, b.velocity.y⟩ }
    else b
  let b2 := if p.x + b.radius > bounds.left + bounds.width then
      { b1 with position := ⟨bounds.left + bounds.width - b.radius, p.y⟩,
                velocity := ⟨-e * b1.velocity.x, b1.velocity.y⟩ }
    else b1
  let b3 := if p.y - b.radius < bounds.top then
      { b2 with position := ⟨p.x, bounds.top + b.radius⟩,
                velocity := ⟨b2.velocity.x, -e * b2.velocity.y⟩ }
    else b2
  if p.y + b.radius > bounds.top + bounds.height then
    { b3 with position := ⟨p.x, bounds.top + bounds.height - b.radius⟩,
              velocity := ⟨b3.velocity.x, -e * b3.velocity.y⟩ }
  else b3

/-- The body of the ball-ball double loop for one pair `(A, B)`:
detection `dist < minD && dist > 0`, the `vrel < 0` gate, the impulse
`jimp = -(1+e)*vrel/2` applied as `A.velocity += P; B.velocity -= P`,
and the half-overlap positional pushes.  `f` stands for the square root
used by `std::hypot`. -/
def resolvePair (f : ℚ → ℚ) (e : ℚ) (A B : Ball) : Ball × Ball :=
  let d := B.position - A.position
  let dist := f (d.x ^ 2 + d.y ^ 2)
  let minD := A.radius + B.radius
  if dist < minD ∧ dist > 0 then
    let n := (1 / dist) • d
    let rel := A.velocity - B.velocity
    let vrel := rel.x * n.x + rel.y * n.y
    if vrel < 0 then
      let jimp := -(1 + e) * vrel / 2
      let P := jimp • n
      let overlap := minD - dist
      ({ A with velocity := A.velocity + P,
                position := A.position + (-(overlap * (1/2))) • n },
       { B with velocity := B.velocity - P,
                position := B.position + (overlap * (1/2)) • n })
    else (A, B)
  else (A, B)

/-- The index pairs `(i, j)` with `i < j < n`, in the visiting order of
the nested `for` loops. -/
def pairIndices (n : Nat) : List (Nat × Nat) :=
  ((List.range n).map (fun i =>
    ((List.range n).filter (fun j => decide (i < j))).map (fun j => (i, j)))).flatten

/-- One iteration of the ball-ball double loop: read balls `i` and `j`,
resolve the pair, write both back. -/
def applyPair (f : ℚ → ℚ) (e : ℚ) (bs : List Ball) (ij : Nat × Nat) : List Ball :=
  match bs.get? ij.1, bs.get? ij.2 with
  | some A, some B =>
      let r := resolvePair f e A B
      (bs.set ij.1 r.1).set ij.2 r.2
  | _, _ => bs

/-- The whole ball-ball pass: every pair in index order, each update
seen by the later pairs. -/
def pairPass (f : ℚ → ℚ) (e : ℚ) (bs : List Ball) : List Ball :=
  (pairIndices bs.length).foldl (applyPair f e) bs

/-- The collision-resolution part of a tick: the wall pass over every
ball followed by the ball-ball pass. -/
def resolveAll (f : ℚ → ℚ) (e : ℚ) (bounds : Rect) (bs : List Ball) : List Ball :=
  pairPass f e (bs.map (wallCollide e bounds))

/-- A full simulation tick: move each ball, run its wall block, then
the ball-ball pass, as in the main loop. -/
def tick (f : ℚ → ℚ) (e : ℚ) (bounds : Rect) (dt : ℚ) (bs : List Ball) : List Ball :=
  pairPass f e (bs.map (fun b => wallCollide e bounds (integrate dt b)))

/-- The mutable state surrounding the loop: the balls, the container and
the drag slot (`dragging`, `dragIndex`, `dragStart`). -/
structure SimState where
  balls : List Ball
  bounds : Rect
  dragging : Bool
  dragIndex : Nat
  dragStart : Vec2
deriving DecidableEq

/-- The search of the mouse-press handler: the first index whose ball
center is within its radius of the click `m`, distance measured by
`std::hypot` (the square-root parameter `f` on the squared length). -/
def findGrab (f : ℚ → ℚ) (m : Vec2) (bs : List Ball) : Option Nat :=
  (List.range bs.length).find? (fun i =>
    match bs.get? i with
    | some b =>
        decide (f ((m.x - b.position.x) ^ 2 + (m.y - b.position.y) ^ 2) ≤ b.radius)
    | none => false)

/-- The mouse-press handler: grab the found ball, record the slot, zero
its velocity; no hit leaves everything unchanged. -/
def startDrag (f : ℚ → ℚ) (m : Vec2) (s : SimState) : SimState :=
  match findGrab f m s.balls with
  | some i =>
      match s.balls.get? i with
      | some b =>
          { s with dragging := true, dragIndex := i, dragStart := m,
                   balls := s.balls.set i { b with velocity := ⟨0, 0⟩ } }
      | none => s
  | none => s

/-- The mouse-release handler: when a drag is open, give the grabbed
ball velocity `(m - dragStart) * throwScale` and close the slot. -/
def endDrag (m : Vec2) (s : SimState) : SimState :=
  if s.dragging then
    match s.balls.get? s.dragIndex with
    | some b =>
        { s with balls := s.balls.set s.dragIndex
                   { b with velocity := throwScale • (m - s.dragStart) },
                 dragging := false }
    | none => { s with dragging := false }
  else s

/-- The space-key handler: zero every velocity and cancel any drag. -/
def clearVelocities (s : SimState) : SimState :=
  { s with balls := s.balls.map (fun b => { b with velocity := ⟨0, 0⟩ }),
           dragging := false }

/-- The body-body collision policy as the spec words it (steps 1 to 6 of
section 4.1): detection when `0 < dist < minD`, normal `n = d / dist`,
relative normal velocity `vrel`, resolution only when `vrel < 0`,
impulse `j = -(1+e) * vrel / 2` applied as `velA += j*n`, `velB -= j*n`,
and each body pushed apart along `n` by half the overlap `minD - dist`.
Written for comparison with `resolvePair`, the translation of the code. -/
def resolvePairSpec (f : ℚ → ℚ) (e : ℚ) (A B : Ball) : Ball × Ball :=
  let d := B.position - A.position
  let dist := f (d.x ^ 2 + d.y ^ 2)
  let minD := A.radius + B.radius
  if 0 < dist ∧ dist < minD then
    let n := (1 / dist) • d
    let vrel := (A.velocity - B.velocity).x * n.x + (A.velocity - B.velocity).y * n.y
    if vrel < 0 then
      let j := -(1 + e) * vrel / 2
      ({ A with velocity := A.velocity + j • n,
                position := A.position - ((minD - dist) / 2) • n },
       { B with velocity := B.velocity - j • n,
                position := B.position + ((minD - dist) / 2) • n })
    else (A, B)
  else (A, B)

/-- One iteration of the ball-ball loop, with the pair resolved by the
policy as the spec words it. -/
def applyPairSpec (f : ℚ → ℚ) (e : ℚ) (bs : List Ball) (ij : Nat × Nat) : List Ball :=
  match bs.get? ij.1, bs.get? ij.2 with
  | some A, some B =>
      let r := resolvePairSpec f e A B
      (bs.set ij.1 r.1).set ij.2 r.2
  | _, _ => bs

theorem resolvePair_eq_resolvePairSpec (f : ℚ → ℚ) (e : ℚ) (A B : Ball) :
    resolvePair f e A B = resolvePairSpec f e A B := by
  obtain ⟨⟨ax, ay⟩, ⟨avx, avy⟩, ar⟩ := A
  obtain ⟨⟨bx, b1y⟩, ⟨bvx, bvy⟩, br⟩ := B
  unfold resolvePair resolvePairSpec
  simp only [Vec2.sub_def, Vec2.add_def, Vec2.smul_def, gt_iff_lt, and_comm]
  split_ifs with h1 h2
  · simp only [Prod.mk.injEq, Ball.mk.injEq, Vec2.mk.injEq]
    and_intros <;> first | rfl | ring
  · rfl
  · rfl

/-- Claim C2: the code resolves a pair exactly when `0 < dist < minD`
and `vrel = (velA - velB) . n < 0`; it then applies the impulse
`j = -(1+e) * vrel / 2` as `velA + j n` and `velB - j n` and pushes each
body apart along `n` by half the overlap `(minD - dist) / 2`; any other
pair is left entirely unchanged; and the whole pass visits the pairs
`(i, j)`, `i < j`, in fixed index order.  Stated as: the translated code
agrees at every input, per pair and over the whole pass, with the policy
as the spec words it. -/
theorem C2_pair_policy_refines_spec (f : ℚ → ℚ) (e : ℚ) :
    (∀ A B, resolvePair f e A B = resolvePairSpec f e A B) ∧
    (∀ bs, pairPass f e bs = (pairIndices bs.length).foldl (applyPairSpec f e) bs) := by
  have hfun : applyPair f e = applyPairSpec f e := by
    funext bs ij
    unfold applyPair applyPairSpec
    cases bs.get? ij.1 <;> cases bs.get? ij.2 <;>
      simp only [resolvePair_eq_resolvePairSpec]
  exact ⟨resolvePair_eq_resolvePairSpec f e, fun bs => by unfold pairPass; rw [hfun]⟩

/-- Claim C8: with exactly coincident centers the computed distance is
`f 0 = 0`, the detection guard `dist > 0` fails, and the pair resolution
returns both balls unchanged: the degenerate case is a silent no-op. -/
theorem C8_coincident_noop (f : ℚ → ℚ) (e : ℚ) (A B : Ball)
    (hpos : A.position = B.position) (hf : f 0 = 0) :
    resolvePair f e A B = (A, B) := by
  unfold resolvePair
  have hd : B.position - A.position = ⟨0, 0⟩ := by
    rw [hpos]; simp [Vec2.sub_def]
  rw [hd]
  norm_num [hf]

/-- Witness for C8 at a concrete coincident pair. -/
theorem C8_coincident_noop_witness :
    resolvePair (fun _ => 0) restitution ⟨⟨1, 2⟩, ⟨3, 4⟩, 15⟩ ⟨⟨1, 2⟩, ⟨5, 6⟩, 15⟩ =
      (⟨⟨1, 2⟩, ⟨3, 4⟩, 15⟩, ⟨⟨1, 2⟩, ⟨5, 6⟩, 15⟩) :=
  C8_coincident_noop (fun _ => 0) restitution _ _ rfl rfl

/-- Claim C9: a pair resolution applies equal and opposite velocity
changes and equal and opposite position pushes, so the velocity sum and
the position sum (hence the midpoint) of the pair are unchanged, at
every input. -/
theorem C9_pair_conservation (f : ℚ → ℚ) (e : ℚ) (A B : Ball) :
    (resolvePair f e A B).1.velocity + (resolvePair f e A B).2.velocity
        = A.velocity + B.velocity ∧
    (resolvePair f e A B).1.position + (resolvePair f e A B).2.position
        = A.position + B.position := by
  obtain ⟨⟨ax, ay⟩, ⟨avx, avy⟩, ar⟩ := A
  obtain ⟨⟨bx, b1y⟩, ⟨bvx, bvy⟩, br⟩ := B
  unfold resolvePair
  simp only [Vec2.sub_def, Vec2.add_def, Vec2.smul_def]
  split_ifs <;>
    simp only [Vec2.add_def, Vec2.smul_def, Vec2.mk.injEq] <;>
    and_intros <;> first | rfl | ring

/-- The condition of the first wall check: the left edge has crossed the left
boundary. -/
def crossLeft (bounds : Rect) (b : Ball) : Prop :=
  b.position.x - b.radius < bounds.left

/-- The condition of the second wall check: the right edge has crossed the
right boundary. -/
def crossRight (bounds : Rect) (b : Ball) : Prop :=
  b.position.x + b.radius > bounds.left + bounds.width

/-- The condition of the third wall check: the top edge has crossed the top
boundary. -/
def crossTop (bounds : Rect) (b : Ball) : Prop :=
  b.position.y - b.radius < bounds.top

/-- The condition of the fourth wall check: the bottom edge has crossed the
bottom boundary. -/
def crossBottom (bounds : Rect) (b : Ball) : Prop :=
  b.position.y + b.radius > bounds.top + bounds.height

/-- Horizontal containment of a ball in the container. -/
def containedX (bounds : Rect) (b : Ball) : Prop :=
  bounds.left ≤ b.position.x - b.radius ∧
  b.position.x + b.radius ≤ bounds.left + bounds.width

/-- Vertical containment of a ball in the container. -/
def containedY (bounds : Rect) (b : Ball) : Prop :=
  bounds.top ≤ b.position.y - b.radius ∧
  b.position.y + b.radius ≤ bounds.top + bounds.height

/-- Claim C1, counterexample: a single ball that has crossed the left
and the top boundary in the same tick.  The left-wall clamp is undone by
the top-wall clamp, which rebuilds the position from the stale
pre-clamp x, so immediately after `resolveAll` the ball still violates
the horizontal containment bound. -/
theorem C1_containment_cex :
    ¬ containedX simBounds
        ((resolveAll (fun _ => 0) restitution simBounds
            [⟨⟨40, 40⟩, ⟨0, 0⟩, 15⟩]).getD 0 ⟨⟨0, 0⟩, ⟨0, 0⟩, 0⟩) := by
  norm_num [resolveAll, pairPass, pairIndices, applyPair, wallCollide,
    containedX, simBounds, restitution, List.range_succ]

/-- Claim C1 as amended: after the wall pass every ball satisfies the
vertical containment bounds, and also the horizontal ones provided it
did not cross the top or bottom boundary in the same tick; the diameter
is assumed to fit in the container. -/
theorem C1_wall_pass_containment (e : ℚ) (bounds : Rect) (b : Ball)
    (hw : 2 * b.radius ≤ bounds.width) (hh : 2 * b.radius ≤ bounds.height) :
    containedY bounds (wallCollide e bounds b) ∧
    (¬ crossTop bounds b → ¬ crossBottom bounds b →
      containedX bounds (wallCollide e bounds b)) := by
  obtain ⟨⟨px, py⟩, ⟨vx, vy⟩, r⟩ := b
  simp only [containedX, containedY, crossLeft, crossRight, crossTop, crossBottom,
    wallCollide] at *
  split_ifs <;> dsimp only <;>
    refine ⟨⟨?_, ?_⟩, fun hnt hnb => ⟨?_, ?_⟩⟩ <;> linarith

/-- Witness for the amended C1 at a concrete corner-crossing ball. -/
theorem C1_wall_pass_containment_witness :
    containedY simBounds (wallCollide restitution simBounds ⟨⟨40, 40⟩, ⟨-10, -10⟩, 15⟩) ∧
    (¬ crossTop simBounds ⟨⟨40, 40⟩, ⟨-10, -10⟩, 15⟩ →
      ¬ crossBottom simBounds ⟨⟨40, 40⟩, ⟨-10, -10⟩, 15⟩ →
      containedX simBounds (wallCollide restitution simBounds ⟨⟨40, 40⟩, ⟨-10, -10⟩, 15⟩)) :=
  C1_wall_pass_containment restitution simBounds _
    (by norm_num [simBounds]) (by norm_num [simBounds])

/-- Claim C4, counterexample: a ball that has crossed the left and the
top boundary.  The claim says the position is clamped so the left edge
exactly touches the left boundary, but the top-wall clamp rebuilds the
position from the stale pre-clamp x, so the final x is not
`left + radius`. -/
theorem C4_wall_policy_cex :
    crossLeft simBounds ⟨⟨45, 45⟩, ⟨-2, -3⟩, 15⟩ ∧
    (wallCollide restitution simBounds ⟨⟨45, 45⟩, ⟨-2, -3⟩, 15⟩).position.x ≠
      simBounds.left + (15 : ℚ) := by
  norm_num [crossLeft, wallCollide, simBounds, restitution]

/-- Claim C4 as amended: each of the four wall checks is decided on the
position read before the pass; a ball that crossed no boundary is left
unchanged; a crossed boundary always negates and scales the matching
velocity component by `-restitution`; the top and bottom clamps always
leave the edge exactly touching; the left and right clamps leave the
edge exactly touching provided no vertical boundary was crossed in the
same tick (otherwise the vertical clamp restores the stale x). -/
theorem C4_wall_policy (bounds : Rect) (b : Ball)
    (hw : 2 * b.radius ≤ bounds.width) (hh : 2 * b.radius ≤ bounds.height) :
    (¬ crossLeft bounds b → ¬ crossRight bounds b → ¬ crossTop bounds b →
      ¬ crossBottom bounds b → wallCollide restitution bounds b = b) ∧
    (crossLeft bounds b →
      (wallCollide restitution bounds b).velocity.x = -restitution * b.velocity.x ∧
      (¬ crossTop bounds b → ¬ crossBottom bounds b →
        (wallCollide restitution bounds b).position.x = bounds.left + b.radius)) ∧
    (crossRight bounds b →
      (wallCollide restitution bounds b).velocity.x = -restitution * b.velocity.x ∧
      (¬ crossTop bounds b → ¬ crossBottom bounds b →
        (wallCollide restitution bounds b).position.x =
          bounds.left + bounds.width - b.radius)) ∧
    (crossTop bounds b →
      (wallCollide restitution bounds b).velocity.y = -restitution * b.velocity.y ∧
      (wallCollide restitution bounds b).position.y = bounds.top + b.radius) ∧
    (crossBottom bounds b →
      (wallCollide restitution bounds b).velocity.y = -restitution * b.velocity.y ∧
      (wallCollide restitution bounds b).position.y =
        bounds.top + bounds.height - b.radius) := by
  obtain ⟨⟨px, py⟩, ⟨vx, vy⟩, r⟩ := b
  simp only [crossLeft, crossRight, crossTop, crossBottom, wallCollide] at *
  split_ifs <;> dsimp only <;>
    refine ⟨fun k1 k2 k3 k4 => ?_, fun k5 => ⟨?_, fun k6 k7 => ?_⟩,
      fun k8 => ⟨?_, fun k9 k10 => ?_⟩, fun k11 => ⟨?_, ?_⟩, fun k12 => ⟨?_, ?_⟩⟩ <;>
    first | rfl | linarith

/-- Witness for the amended C4 at a concrete ball crossing only the
right boundary. -/
theorem C4_wall_policy_witness :
    (¬ crossLeft simBounds ⟨⟨745, 300⟩, ⟨20, 0⟩, 15⟩ →
      ¬ crossRight simBounds ⟨⟨745, 300⟩, ⟨20, 0⟩, 15⟩ →
      ¬ crossTop simBounds ⟨⟨745, 300⟩, ⟨20, 0⟩, 15⟩ →
      ¬ crossBottom simBounds ⟨⟨745, 300⟩, ⟨20, 0⟩, 15⟩ →
      wallCollide restitution simBounds ⟨⟨745, 300⟩, ⟨20, 0⟩, 15⟩ =
        ⟨⟨745, 300⟩, ⟨20, 0⟩, 15⟩) ∧
    (crossLeft simBounds ⟨⟨745, 300⟩, ⟨20, 0⟩, 15⟩ →
      (wallCollide restitution simBounds ⟨⟨745, 300⟩, ⟨20, 0⟩, 15⟩).velocity.x =
        -restitution * (20 : ℚ) ∧
      (¬ crossTop simBounds ⟨⟨745, 300⟩, ⟨20, 0⟩, 15⟩ →
        ¬ crossBottom simBounds ⟨⟨745, 300⟩, ⟨20, 0⟩, 15⟩ →
        (wallCollide restitution simBounds ⟨⟨745, 300⟩, ⟨20, 0⟩, 15⟩).position.x =
          simBounds.left + (15 : ℚ))) ∧
    (crossRight simBounds ⟨⟨745, 300⟩, ⟨20, 0⟩, 15⟩ →
      (wallCollide restitution simBounds ⟨⟨745, 300⟩, ⟨20, 0⟩, 15⟩).velocity.x =
        -restitution * (20 : ℚ) ∧
      (¬ crossTop simBounds ⟨⟨745, 300⟩, ⟨20, 0⟩, 15⟩ →
        ¬ crossBottom simBounds ⟨⟨745, 300⟩, ⟨20, 0⟩, 15⟩ →
        (wallCollide restitution simBounds ⟨⟨745, 300⟩, ⟨20, 0⟩, 15⟩).position.x =
          simBounds.left + simBounds.width - (15 : ℚ))) ∧
    (crossTop simBounds ⟨⟨745, 300⟩, ⟨20, 0⟩, 15⟩ →
      (wallCollide restitution simBounds ⟨⟨745, 300⟩, ⟨20, 0⟩, 15⟩).velocity.y =
        -restitution * (0 : ℚ) ∧
      (wallCollide restitution simBounds ⟨⟨745, 300⟩, ⟨20, 0⟩, 15⟩).position.y =
        simBounds.top + (15 : ℚ)) ∧
    (crossBottom simBounds ⟨⟨745, 300⟩, ⟨20, 0⟩, 15⟩ →
      (wallCollide restitution simBounds ⟨⟨745, 300⟩, ⟨20, 0⟩, 15⟩).velocity.y =
        -restitution * (0 : ℚ) ∧
      (wallCollide restitution simBounds ⟨⟨745, 300⟩, ⟨20, 0⟩, 15⟩).position.y =
        simBounds.top + simBounds.height - (15 : ℚ)) :=
  C4_wall_policy simBounds ⟨⟨745, 300⟩, ⟨20, 0⟩, 15⟩
    (by norm_num [simBounds]) (by norm_num [simBounds])

instance : Inhabited Ball := ⟨⟨⟨0, 0⟩, ⟨0, 0⟩, 0⟩⟩

theorem mem_pairIndices {n i j : Nat} (h : (i, j) ∈ pairIndices n) : i < j ∧ j < n := by
  simp only [pairIndices, List.mem_flatten, List.mem_map] at h
  obtain ⟨l, ⟨i2, hi2, rfl⟩, hmem⟩ := h
  simp only [List.mem_map, List.mem_filter, List.mem_range] at hmem
  obtain ⟨j2, ⟨hj2, hij⟩, heq⟩ := hmem
  obtain ⟨rfl, rfl⟩ := Prod.mk.injEq .. |>.mp heq
  exact ⟨by simpa using hij, hj2⟩

theorem foldl_fixed {α β : Type} (g : α → β → α) (b : α) :
    ∀ (l : List β), (∀ x ∈ l, g b x = b) → l.foldl g b = b := by
  intro l
  induction l with
  | nil => intro _; rfl
  | cons x xs ih =>
      intro h
      simp only [List.foldl_cons]
      rw [h x (by simp)]
      exact ih (fun y hy => h y (by simp [hy]))

theorem map_id_of {α : Type} (g : α → α) : ∀ (l : List α), (∀ x ∈ l, g x = x) → l.map g = l := by
  intro l
  induction l with
  | nil => intro _; rfl
  | cons x xs ih =>
      intro h
      simp only [List.map_cons]
      rw [h x (by simp), ih (fun y hy => h y (by simp [hy]))]

theorem set_self_of_get? {α : Type} (l : List α) (i : Nat) (a : α) (h : l.get? i = some a) :
    l.set i a = l := by
  induction l generalizing i with
  | nil => rfl
  | cons x xs ih =>
      cases i with
      | zero =>
          simp only [List.get?_cons_zero, Option.some.injEq] at h
          simp [h]
      | succ n =>
          simp only [List.get?_cons_succ] at h
          simp [List.set, ih n h]

/-- A wall pass on a ball that has crossed no boundary is the identity. -/
theorem wallCollide_eq_self (e : ℚ) (bounds : Rect) (b : Ball)
    (h1 : ¬ crossLeft bounds b) (h2 : ¬ crossRight bounds b)
    (h3 : ¬ crossTop bounds b) (h4 : ¬ crossBottom bounds b) :
    wallCollide e bounds b = b := by
  obtain ⟨⟨px, py⟩, ⟨vx, vy⟩, r⟩ := b
  simp only [crossLeft, crossRight, crossTop, crossBottom, wallCollide] at *
  split_ifs
  rfl

/-- A pair at distance at least the radius sum is left unchanged by the
pair resolution. -/
theorem resolvePair_no_overlap (f : ℚ → ℚ) (e : ℚ) (A B : Ball)
    (h : A.radius + B.radius ≤ f (sqDist A B)) :
    resolvePair f e A B = (A, B) := by
  simp only [resolvePair]
  have hng : ¬ (f ((B.position - A.position).x ^ 2 + (B.position - A.position).y ^ 2) <
      A.radius + B.radius ∧
      f ((B.position - A.position).x ^ 2 + (B.position - A.position).y ^ 2) > 0) := by
    rintro ⟨h1, -⟩
    simp only [sqDist] at h
    exact absurd h1 (not_lt.mpr h)
  rw [if_neg hng]

/-- One iteration of the ball-ball loop leaves the list unchanged when
the visited pair is at distance at least the radius sum. -/
theorem applyPair_no_overlap (f : ℚ → ℚ) (e : ℚ) (bs : List Ball) (i j : Nat)
    (h : ∀ A B, bs.get? i = some A → bs.get? j = some B →
      A.radius + B.radius ≤ f (sqDist A B)) :
    applyPair f e bs (i, j) = bs := by
  unfold applyPair
  cases hA : bs.get? i with
  | none => simp [hA]
  | some A =>
      cases hB : bs.get? j with
      | none => simp [hA, hB]
      | some B =>
          simp only [hA, hB]
          rw [resolvePair_no_overlap f e A B (h A B hA hB)]
          rw [set_self_of_get? bs i A hA, set_self_of_get? bs j B hB]

/-- Claim C7: when no ball has crossed a boundary and every pair is at
distance at least the sum of radii, `resolveAll` (the wall pass followed
by the ball-ball pass) leaves every ball exactly unchanged. -/
theorem C7_no_collision_idempotent (f : ℚ → ℚ) (e : ℚ) (bounds : Rect) (bs : List Ball)
    (hwall : ∀ b ∈ bs, ¬ crossLeft bounds b ∧ ¬ crossRight bounds b ∧
      ¬ crossTop bounds b ∧ ¬ crossBottom bounds b)
    (hpair : ∀ i j A B, i < j → bs.get? i = some A → bs.get? j = some B →
      A.radius + B.radius ≤ f (sqDist A B)) :
    resolveAll f e bounds bs = bs := by
  have hmap : bs.map (wallCollide e bounds) = bs :=
    map_id_of _ bs (fun b hb =>
      wallCollide_eq_self e bounds b (hwall b hb).1 (hwall b hb).2.1
        (hwall b hb).2.2.1 (hwall b hb).2.2.2)
  unfold resolveAll pairPass
  rw [hmap]
  apply foldl_fixed
  intro ij hij
  obtain ⟨i, j⟩ := ij
  obtain ⟨hlt, hjn⟩ := mem_pairIndices hij
  exact applyPair_no_overlap f e bs i j (fun A B hA hB => hpair i j A B hlt hA hB)

/-- Witness for C7: a concrete two-ball state with no overlap and no
crossed wall is exactly unchanged by `resolveAll`. -/
theorem C7_no_collision_idempotent_witness :
    resolveAll (fun q => if q = 20000 then 141 else 1000) restitution simBounds
        [⟨⟨100, 100⟩, ⟨1, 2⟩, 15⟩, ⟨⟨200, 200⟩, ⟨3, 4⟩, 15⟩] =
      [⟨⟨100, 100⟩, ⟨1, 2⟩, 15⟩, ⟨⟨200, 200⟩, ⟨3, 4⟩, 15⟩] := by
  apply C7_no_collision_idempotent
  · intro b hb
    fin_cases hb <;>
      norm_num [crossLeft, crossRight, crossTop, crossBottom, simBounds]
  · intro i j A B hlt hA hB
    have hj : j < 2 := by
      by_contra hge
      rw [List.get?_eq_none.mpr (by simpa using hge)] at hB
      exact Option.noConfusion hB
    interval_cases j
    · omega
    · have hi : i = 0 := by omega
      subst hi
      simp only [List.get?_cons_zero, List.get?_cons_succ, Option.some.injEq] at hA hB
      subst hA
      subst hB
      norm_num [sqDist, Vec2.sub_def]

/-- After a resolved pair resolution the squared center distance equals
the squared radius sum: the half-overlap pushes move the centers to
exact touching. -/
theorem resolvePair_resolved_sqDist (f : ℚ → ℚ) (e : ℚ) (A B : Ball)
    (hdist : 0 < f (sqDist A B)) (hover : f (sqDist A B) < A.radius + B.radius)
    (hsq : f (sqDist A B) ^ 2 = sqDist A B)
    (hvrel : (A.velocity - B.velocity).x * (B.position - A.position).x +
             (A.velocity - B.velocity).y * (B.position - A.position).y < 0) :
    sqDist (resolvePair f e A B).1 (resolvePair f e A B).2 =
      (A.radius + B.radius) ^ 2 := by
  obtain ⟨⟨ax, ay⟩, ⟨avx, avy⟩, ar⟩ := A
  obtain ⟨⟨bx, b1y⟩, ⟨bvx, bvy⟩, br⟩ := B
  simp only [sqDist, Vec2.sub_def] at *
  simp only [resolvePair, Vec2.sub_def, Vec2.smul_def, Vec2.add_def]
  set dist := f ((bx - ax) ^ 2 + (b1y - ay) ^ 2) with hdistdef
  have hne : dist ≠ 0 := ne_of_gt hdist
  rw [if_pos ⟨hover, hdist⟩, if_pos ?hv]
  case hv =>
    have hrw : (avx - bvx) * (1 / dist * (bx - ax)) + (avy - bvy) * (1 / dist * (b1y - ay))
        = (1 / dist) * ((avx - bvx) * (bx - ax) + (avy - bvy) * (b1y - ay)) := by
      ring
    rw [hrw]
    exact mul_neg_of_pos_of_neg (by positivity) hvrel
  dsimp only
  field_simp
  linear_combination (-4 * (ar + br) ^ 2) * hsq

/-- Claim C3 as amended (the single-overlapping-pair system, pair
actually resolved): after the ball-ball pass the center distance of the
pair is exactly the radius sum, so it is at least `minD - eps` for every
nonnegative tolerance. -/
theorem C3_resolved_pair_touches (f : ℚ → ℚ) (e : ℚ) (A B : Ball)
    (hdist : 0 < f (sqDist A B)) (hover : f (sqDist A B) < A.radius + B.radius)
    (hsq : f (sqDist A B) ^ 2 = sqDist A B)
    (hvrel : (A.velocity - B.velocity).x * (B.position - A.position).x +
             (A.velocity - B.velocity).y * (B.position - A.position).y < 0)
    (hfm : f ((A.radius + B.radius) ^ 2) = A.radius + B.radius) :
    f (sqDist ((pairPass f e [A, B]).getD 0 default)
        ((pairPass f e [A, B]).getD 1 default)) = A.radius + B.radius := by
  have hpp : pairPass f e [A, B] = [(resolvePair f e A B).1, (resolvePair f e A B).2] := rfl
  rw [hpp]
  have h0 : ([(resolvePair f e A B).1, (resolvePair f e A B).2].getD 0 default)
      = (resolvePair f e A B).1 := rfl
  have h1 : ([(resolvePair f e A B).1, (resolvePair f e A B).2].getD 1 default)
      = (resolvePair f e A B).2 := rfl
  rw [h0, h1, resolvePair_resolved_sqDist f e A B hdist hover hsq hvrel, hfm]

/-- Witness for the amended C3: a concrete resolved overlapping pair
ends the pass at distance exactly 30 = 15 + 15. -/
theorem C3_resolved_pair_touches_witness :
    (fun q => if q = 100 then (10 : ℚ) else if q = 900 then 30 else 1000)
      (sqDist ((pairPass (fun q => if q = 100 then (10 : ℚ) else if q = 900 then 30 else 1000)
          restitution [⟨⟨0, 0⟩, ⟨-1, 0⟩, 15⟩, ⟨⟨10, 0⟩, ⟨0, 0⟩, 15⟩]).getD 0 default)
        ((pairPass (fun q => if q = 100 then (10 : ℚ) else if q = 900 then 30 else 1000)
          restitution [⟨⟨0, 0⟩, ⟨-1, 0⟩, 15⟩, ⟨⟨10, 0⟩, ⟨0, 0⟩, 15⟩]).getD 1 default))
      = (15 : ℚ) + 15 := by
  exact C3_resolved_pair_touches
    (fun q => if q = 100 then (10 : ℚ) else if q = 900 then 30 else 1000) restitution
    ⟨⟨0, 0⟩, ⟨-1, 0⟩, 15⟩ ⟨⟨10, 0⟩, ⟨0, 0⟩, 15⟩
    (by norm_num [sqDist, Vec2.sub_def]) (by norm_num [sqDist, Vec2.sub_def])
    (by norm_num [sqDist, Vec2.sub_def]) (by norm_num [Vec2.sub_def])
    (by norm_num)

/-- The square-root map used by the C3 counterexample. -/
def cex3sqrt : ℚ → ℚ := fun q => if q = 100 then 10 else 1000

/-- The two overlapping balls at rest of the C3 counterexample. -/
def cex3balls : List Ball := [⟨⟨100, 100⟩, ⟨0, 0⟩, 15⟩, ⟨⟨110, 100⟩, ⟨0, 0⟩, 15⟩]

/-- Claim C3, counterexample: the only pair of the system overlaps
(distance 10, radius sum 30) but is at rest, so the gate `vrel < 0`
fails, the pass changes nothing, and the post-pass distance 10 is far
below `minD - eps` already at tolerance `eps = 1`. -/
theorem C3_nonpenetration_cex :
    (0 < cex3sqrt (sqDist (cex3balls.getD 0 default) (cex3balls.getD 1 default)) ∧
     cex3sqrt (sqDist (cex3balls.getD 0 default) (cex3balls.getD 1 default)) <
       (cex3balls.getD 0 default).radius + (cex3balls.getD 1 default).radius) ∧
    cex3sqrt (sqDist ((pairPass cex3sqrt restitution cex3balls).getD 0 default)
        ((pairPass cex3sqrt restitution cex3balls).getD 1 default)) <
      (cex3balls.getD 0 default).radius + (cex3balls.getD 1 default).radius - 1 := by
  norm_num [cex3sqrt, cex3balls, pairPass, pairIndices, applyPair, resolvePair, sqDist,
    Vec2.sub_def, List.range_succ, restitution]

/-- Integration moves a zero-velocity ball nowhere. -/
theorem integrate_zero_vel (dt : ℚ) (b : Ball) (h : b.velocity = ⟨0, 0⟩) :
    integrate dt b = b := by
  obtain ⟨⟨px, py⟩, v, r⟩ := b
  subst h
  simp [integrate, Vec2.add_def, Vec2.smul_def]

/-- The square-root map used by the C6 counterexample. -/
def cex6sqrt : ℚ → ℚ := fun q => if q = 100 then 10 else 1000

/-- The C6 counterexample state: ball 0 is grabbed (drag open, velocity
zero) while ball 1 overlaps it with a velocity that passes the gate. -/
def cex6state : SimState :=
  ⟨[⟨⟨100, 100⟩, ⟨0, 0⟩, 15⟩, ⟨⟨110, 100⟩, ⟨5, 0⟩, 15⟩], simBounds, true, 0, ⟨100, 100⟩⟩

/-- Claim C6, counterexample: the passes give a grabbed ball no
exemption.  In a state whose drag slot holds ball 0 with velocity zero,
one `resolveAll` gives the grabbed ball a nonzero velocity and moves its
position, because ball 1 collides with it. -/
theorem C6_grabbed_pinning_cex :
    cex6state.dragging = true ∧
    (cex6state.balls.getD cex6state.dragIndex default).velocity = ⟨0, 0⟩ ∧
    ((resolveAll cex6sqrt restitution cex6state.bounds cex6state.balls).getD
        cex6state.dragIndex default).velocity ≠ ⟨0, 0⟩ ∧
    ((resolveAll cex6sqrt restitution cex6state.bounds cex6state.balls).getD
        cex6state.dragIndex default).position ≠
      (cex6state.balls.getD cex6state.dragIndex default).position := by
  norm_num [cex6state, cex6sqrt, resolveAll, pairPass, pairIndices, applyPair, resolvePair,
    wallCollide, sqDist, Vec2.sub_def, Vec2.add_def, Vec2.smul_def, List.range_succ,
    restitution, simBounds, Ball.mk.injEq, Vec2.mk.injEq]

/-- Claim C6 as amended: a grabbed ball keeps velocity zero and position
fixed across a tick as long as nothing interacts with it: after
integration no ball touches a wall and every pair is separated.  (The
counterexample shows the qualification is needed: the passes have no
grabbed-ball exemption.) -/
theorem C6_grabbed_pinning (f : ℚ → ℚ) (dt : ℚ) (s : SimState) (b : Ball)
    (hdrag : s.dragging = true)
    (hb : s.balls.get? s.dragIndex = some b)
    (hvel : b.velocity = ⟨0, 0⟩)
    (hwall : ∀ c ∈ s.balls.map (integrate dt), ¬ crossLeft s.bounds c ∧
      ¬ crossRight s.bounds c ∧ ¬ crossTop s.bounds c ∧ ¬ crossBottom s.bounds c)
    (hpair : ∀ i j A B, i < j → (s.balls.map (integrate dt)).get? i = some A →
      (s.balls.map (integrate dt)).get? j = some B →
      A.radius + B.radius ≤ f (sqDist A B)) :
    (tick f restitution s.bounds dt s.balls).get? s.dragIndex = some b := by
  have hcomp : s.balls.map (fun c => wallCollide restitution s.bounds (integrate dt c))
      = (s.balls.map (integrate dt)).map (wallCollide restitution s.bounds) := by
    rw [List.map_map]
    rfl
  have hwid : (s.balls.map (integrate dt)).map (wallCollide restitution s.bounds)
      = s.balls.map (integrate dt) :=
    map_id_of _ _ (fun c hc => wallCollide_eq_self _ _ c (hwall c hc).1
      (hwall c hc).2.1 (hwall c hc).2.2.1 (hwall c hc).2.2.2)
  have hfold : pairPass f restitution (s.balls.map (integrate dt))
      = s.balls.map (integrate dt) := by
    unfold pairPass
    apply foldl_fixed
    intro ij hij
    obtain ⟨i, j⟩ := ij
    obtain ⟨hlt, -⟩ := mem_pairIndices hij
    exact applyPair_no_overlap _ _ _ i j (fun A B hA hB => hpair i j A B hlt hA hB)
  unfold tick
  rw [hcomp, hwid, hfold, List.get?_map, hb]
  simp [integrate_zero_vel dt b hvel]

/-- Witness for the amended C6: a grabbed zero-velocity ball is exactly
preserved by a tick in which the other ball flies freely. -/
theorem C6_grabbed_pinning_witness :
    (tick (fun q => if q = 24200 then (155 : ℚ) else 1000) restitution simBounds 1
        [⟨⟨100, 100⟩, ⟨0, 0⟩, 15⟩, ⟨⟨200, 200⟩, ⟨10, 10⟩, 15⟩]).get? 0 =
      some ⟨⟨100, 100⟩, ⟨0, 0⟩, 15⟩ := by
  exact C6_grabbed_pinning (fun q => if q = 24200 then (155 : ℚ) else 1000) 1
    ⟨[⟨⟨100, 100⟩, ⟨0, 0⟩, 15⟩, ⟨⟨200, 200⟩, ⟨10, 10⟩, 15⟩], simBounds, true, 0, ⟨100, 100⟩⟩
    ⟨⟨100, 100⟩, ⟨0, 0⟩, 15⟩ rfl rfl rfl
    (by
      intro c hc
      fin_cases hc <;>
        norm_num [integrate, crossLeft, crossRight, crossTop, crossBottom,
          simBounds, Vec2.add_def, Vec2.smul_def])
    (by
      intro i j A B hlt hA hB
      have hj : j < 2 := by
        by_contra hge
        rw [List.get?_eq_none.mpr (by simpa using hge)] at hB
        exact Option.noConfusion hB
      interval_cases j
      · omega
      · have hi : i = 0 := by omega
        subst hi
        simp only [List.map_cons, List.map_nil, List.get?_cons_zero,
          List.get?_cons_succ, Option.some.injEq] at hA hB
        subst hA
        subst hB
        norm_num [sqDist, integrate, Vec2.sub_def, Vec2.add_def, Vec2.smul_def])

/-- The first index of a ball satisfying `pb`, lowest index first: the
selection rule as the spec words it. -/
def firstIdx (pb : Ball → Bool) : List Ball → Option Nat
  | [] => none
  | b :: rest => if pb b then some 0 else (firstIdx pb rest).map (· + 1)

theorem find?_range_get? (pb : Ball → Bool) :
    ∀ (bs : List Ball),
      (List.range bs.length).find? (fun i =>
        match bs.get? i with
        | some b => pb b
        | none => false) = firstIdx pb bs := by
  intro bs
  induction bs with
  | nil => rfl
  | cons b rest ih =>
      rw [List.length_cons, List.range_succ_eq_map, List.find?_cons]
      by_cases hpb : pb b
      · simp only [List.get?_cons_zero, hpb, firstIdx, if_pos]
      · simp only [List.get?_cons_zero, hpb, firstIdx]
        rw [List.find?_map]
        simp only [Function.comp_def, List.get?_cons_succ]
        rw [ih, if_neg (by simp)]

/-- The mouse-press search agrees with the lowest-index-first selection
rule. -/
theorem findGrab_eq_firstIdx (f : ℚ → ℚ) (m : Vec2) (bs : List Ball) :
    findGrab f m bs = firstIdx (fun b =>
      decide (f ((m.x - b.position.x) ^ 2 + (m.y - b.position.y) ^ 2) ≤ b.radius)) bs :=
  find?_range_get? _ bs

/-- Claim C5: `startDrag` selects the first (lowest-index) ball whose
center is within its radius of the pointer, zeroes its velocity and
opens the drag slot with its index and the pointer position, and is a
no-op when no ball is hit; `endDrag` with an open slot gives the grabbed
ball velocity `(q - dragStart) * throwScale` and closes the slot, and is
a no-op when no slot is open. -/
theorem C5_drag_throw (f : ℚ → ℚ) (m q : Vec2) (s : SimState) :
    findGrab f m s.balls = firstIdx (fun b =>
      decide (f ((m.x - b.position.x) ^ 2 + (m.y - b.position.y) ^ 2) ≤ b.radius)) s.balls ∧
    (findGrab f m s.balls = none → startDrag f m s = s) ∧
    (∀ i b, findGrab f m s.balls = some i → s.balls.get? i = some b →
      startDrag f m s =
        { s with
          dragging := true, dragIndex := i, dragStart := m,
          balls := s.balls.set i { b with velocity := ⟨0, 0⟩ } }) ∧
    (∀ b, s.dragging = true → s.balls.get? s.dragIndex = some b →
      endDrag q s =
        { s with
          dragging := false,
          balls := s.balls.set s.dragIndex
            { b with velocity := throwScale • (q - s.dragStart) } }) ∧
    (s.dragging = false → endDrag q s = s) := by
  refine ⟨findGrab_eq_firstIdx f m s.balls, ?_, ?_, ?_, ?_⟩
  · intro h
    unfold startDrag
    rw [h]
  · intro i b hi hb
    unfold startDrag
    rw [hi]
    dsimp only
    rw [hb]
  · intro b hdrag hb
    unfold endDrag
    rw [if_pos hdrag]
    rw [hb]
  · intro hdrag
    unfold endDrag
    rw [if_neg (by simp [hdrag])]

/-- Witness for C5: a concrete grab zeroes the velocity of the hit ball and
records the slot, and a concrete release throws the grabbed ball with
`(q - dragStart) * 5`. -/
theorem C5_drag_throw_witness :
    startDrag (fun v => if v = 25 then (5 : ℚ) else 1000) ⟨105, 100⟩
        ⟨[⟨⟨100, 100⟩, ⟨3, 4⟩, 15⟩], simBounds, false, 0, ⟨0, 0⟩⟩ =
      ⟨[⟨⟨100, 100⟩, ⟨0, 0⟩, 15⟩], simBounds, true, 0, ⟨105, 100⟩⟩ ∧
    endDrag ⟨110, 120⟩ ⟨[⟨⟨100, 100⟩, ⟨0, 0⟩, 15⟩], simBounds, true, 0, ⟨100, 100⟩⟩ =
      ⟨[⟨⟨100, 100⟩, ⟨50, 100⟩, 15⟩], simBounds, false, 0, ⟨100, 100⟩⟩ := by
  constructor
  · have h := (C5_drag_throw (fun v => if v = 25 then (5 : ℚ) else 1000) ⟨105, 100⟩ ⟨0, 0⟩
        ⟨[⟨⟨100, 100⟩, ⟨3, 4⟩, 15⟩], simBounds, false, 0, ⟨0, 0⟩⟩).2.2.1 0
        ⟨⟨100, 100⟩, ⟨3, 4⟩, 15⟩
        (by norm_num [findGrab, List.range_succ, List.find?_cons, decide_eq_true_eq]) rfl
    rw [h]
    rfl
  · have h := (C5_drag_throw (fun v => if v = 25 then (5 : ℚ) else 1000) ⟨0, 0⟩ ⟨110, 120⟩
        ⟨[⟨⟨100, 100⟩, ⟨0, 0⟩, 15⟩], simBounds, true, 0, ⟨100, 100⟩⟩).2.2.2.1
        ⟨⟨100, 100⟩, ⟨0, 0⟩, 15⟩ rfl rfl
    rw [h]
    norm_num [throwScale, Vec2.sub_def, Vec2.smul_def, SimState.mk.injEq,
      Ball.mk.injEq, Vec2.mk.injEq, List.set_cons_zero]

/-- Claim C10: a successful grab changes only the velocity of the
selected ball (to zero) and the drag slot; list length, every other
entry, the position and radius of the selected ball, and the container
are unchanged; a grab that hits nothing changes nothing. -/
theorem C10_startDrag_frame (f : ℚ → ℚ) (m : Vec2) (s : SimState) :
    (∀ i b, findGrab f m s.balls = some i → s.balls.get? i = some b →
      (startDrag f m s).balls.length = s.balls.length ∧
      (∀ k, k ≠ i → (startDrag f m s).balls.get? k = s.balls.get? k) ∧
      (startDrag f m s).balls.get? i = some { b with velocity := ⟨0, 0⟩ } ∧
      (startDrag f m s).bounds = s.bounds ∧
      (startDrag f m s).dragging = true ∧
      (startDrag f m s).dragIndex = i ∧
      (startDrag f m s).dragStart = m) ∧
    (findGrab f m s.balls = none → startDrag f m s = s) := by
  constructor
  · intro i b hi hb
    have hs : startDrag f m s =
        { s with
          dragging := true, dragIndex := i, dragStart := m,
          balls := s.balls.set i { b with velocity := ⟨0, 0⟩ } } := by
      unfold startDrag
      rw [hi]
      dsimp only
      rw [hb]
    obtain ⟨hi_lt, -⟩ := List.get?_eq_some.mp hb
    rw [hs]
    refine ⟨List.length_set .., ?_, ?_, rfl, rfl, rfl, rfl⟩
    · intro k hk
      exact List.get?_set_ne _ _ (fun h => hk h.symm)
    · exact List.get?_set_eq_of_lt _ hi_lt
  · intro h
    unfold startDrag
    rw [h]

/-- Witness for C10 at a concrete two-ball state where the pointer hits
ball 1. -/
theorem C10_startDrag_frame_witness :
    (startDrag (fun v => if v = 16 then (4 : ℚ) else 1000) ⟨204, 300⟩
        ⟨[⟨⟨100, 100⟩, ⟨1, 1⟩, 15⟩, ⟨⟨200, 300⟩, ⟨2, 2⟩, 15⟩], simBounds, false, 0,
          ⟨0, 0⟩⟩).balls.length = 2 ∧
    (startDrag (fun v => if v = 16 then (4 : ℚ) else 1000) ⟨204, 300⟩
        ⟨[⟨⟨100, 100⟩, ⟨1, 1⟩, 15⟩, ⟨⟨200, 300⟩, ⟨2, 2⟩, 15⟩], simBounds, false, 0,
          ⟨0, 0⟩⟩).balls.get? 0 = some ⟨⟨100, 100⟩, ⟨1, 1⟩, 15⟩ ∧
    (startDrag (fun v => if v = 16 then (4 : ℚ) else 1000) ⟨204, 300⟩
        ⟨[⟨⟨100, 100⟩, ⟨1, 1⟩, 15⟩, ⟨⟨200, 300⟩, ⟨2, 2⟩, 15⟩], simBounds, false, 0,
          ⟨0, 0⟩⟩).balls.get? 1 = some ⟨⟨200, 300⟩, ⟨0, 0⟩, 15⟩ ∧
    (startDrag (fun v => if v = 16 then (4 : ℚ) else 1000) ⟨204, 300⟩
        ⟨[⟨⟨100, 100⟩, ⟨1, 1⟩, 15⟩, ⟨⟨200, 300⟩, ⟨2, 2⟩, 15⟩], simBounds, false, 0,
          ⟨0, 0⟩⟩).dragging = true := by
  have h := (C10_startDrag_frame (fun v => if v = 16 then (4 : ℚ) else 1000) ⟨204, 300⟩
      ⟨[⟨⟨100, 100⟩, ⟨1, 1⟩, 15⟩, ⟨⟨200, 300⟩, ⟨2, 2⟩, 15⟩], simBounds, false, 0, ⟨0, 0⟩⟩).1
      1 ⟨⟨200, 300⟩, ⟨2, 2⟩, 15⟩
      (by norm_num [findGrab, List.range_succ, List.find?_cons, decide_eq_true_eq]) rfl
  obtain ⟨h1, h2, h3, -, h5, -, -⟩ := h
  exact ⟨h1, (h2 0 (by norm_num)).trans rfl, h3, h5⟩
